import Mathlib

/-!
Verification of the funding-arbitrage backend's cryptographic-encoding core
(the Vest order-signing script `test-vest.py` and the delegated-signer
registration script `src/utils/vest.py`) against its specification.

The two scripts delegate the byte-level work to `eth_abi.encode`,
`eth_account.messages.encode_defunct` / `encode_typed_data` and
`eth_account.Account.sign_message` / `from_key`.  Those call paths are
embedded here at the byte level, faithfully to the libraries' documented
algorithms (head/tail ABI encoding, EIP-191 personal-message framing,
EIP-712 typed-data hashing).  The keccak-256 compression itself and the
secp256k1 scalar multiplication are external primitives (the spec treats
them as given); they appear as explicit function parameters so that every
definition stays executable.
-/

/-- A byte. -/
abbrev Byte := Fin 256

/-- Truncate a natural number to a byte. -/
def byteOf (m : ℕ) : Byte := ⟨m % 256, Nat.mod_lt _ (by norm_num)⟩

/-- Big-endian fixed-width byte encoding of a natural number, `w` bytes wide
(the `uint256` primitive of `eth_abi`, with `w = 32`). -/
def beBytes (w m : ℕ) : List Byte :=
  (List.range w).map fun i => byteOf (m / 256 ^ (w - 1 - i))

/-- Big-endian value of a byte string (decoder used only in proofs). -/
def beVal : List Byte → ℕ
  | [] => 0
  | b :: l => b.val * 256 ^ l.length + beVal l

/-- Zero padding bytes. -/
def zeros (n : ℕ) : List Byte := List.replicate n 0

/-- Number of zero bytes `eth_abi` right-pads onto a length-`n` dynamic
payload to reach a multiple of 32 bytes. -/
def padLen (n : ℕ) : ℕ := (32 - n % 32) % 32

/-- A single 32-byte ABI word. -/
def word (n : ℕ) : List Byte := beBytes 32 n

/-- 32-byte ABI encoding of a boolean (0 or 1, big-endian). -/
def boolWord (b : Bool) : List Byte := word (if b then 1 else 0)

/-- Tail section of a dynamic `string` value: 32-byte length word, the raw
UTF-8 bytes, zero padding to a multiple of 32. -/
def stringTail (s : List Byte) : List Byte :=
  word s.length ++ s ++ zeros (padLen s.length)

/-- Byte length of a string's tail section. -/
def stringTailLen (s : List Byte) : ℕ := 32 + s.length + padLen s.length

/-- A value of one of the ABI types the order encoding uses
(`uint256`, `bool`, `string`). -/
inductive AbiValue where
  | uint (n : ℕ)
  | boolean (b : Bool)
  | str (s : List Byte)

/-- Tail section contributed by one value: empty for the static types,
the length-prefixed padded payload for `string`. -/
def AbiValue.tailSec : AbiValue → List Byte
  | .str s => stringTail s
  | _ => []

/-- Head slot contributed by one value, given the byte offset at which its
tail lands: the inline 32-byte word for static types, the offset word for
`string`. -/
def AbiValue.headSlot (off : ℕ) : AbiValue → List Byte
  | .uint n => word n
  | .boolean b => boolWord b
  | .str _ => word off

/-- The heads-and-tails traversal of `eth_abi.encode`: `off` is the offset
(from the start of the whole encoding) at which the next dynamic tail will
be placed. -/
def encodeAux : ℕ → List AbiValue → List Byte × List Byte
  | _, [] => ([], [])
  | off, v :: vs =>
      let t := v.tailSec
      let p := encodeAux (off + t.length) vs
      (v.headSlot off ++ p.1, t ++ p.2)

/-- `eth_abi.encode`: all head slots (32 bytes per value) followed by all
tail sections; the first tail lands right after the head area. -/
def abiEncode (vs : List AbiValue) : List Byte :=
  (encodeAux (32 * vs.length) vs).1 ++ (encodeAux (32 * vs.length) vs).2

/-- The eight order fields, in the fixed declared order of `test-vest.py`
(string fields carried as their UTF-8 bytes). -/
structure Order where
  time : ℕ
  nonce : ℕ
  orderType : List Byte
  symbol : List Byte
  isBuy : Bool
  size : List Byte
  limitPrice : List Byte
  reduceOnly : Bool
deriving DecidableEq

/-- The in-range side conditions under which `eth_abi` accepts the order's
values: `uint256` arguments below `2^256`, string payloads short enough for
their 32-byte length word. -/
def Order.wf (o : Order) : Prop :=
  o.time < 256 ^ 32 ∧ o.nonce < 256 ^ 32 ∧
  o.orderType.length < 256 ^ 32 ∧ o.symbol.length < 256 ^ 32 ∧
  o.size.length < 256 ^ 32 ∧ o.limitPrice.length < 256 ^ 32

instance instDecidableOrderWf (o : Order) : Decidable o.wf := by
  unfold Order.wf
  infer_instance

/-- The typed value list handed to `encode` in `test-vest.py`, in its fixed
declared field order
`(uint256, uint256, string, string, bool, string, string, bool)`. -/
def Order.values (o : Order) : List AbiValue :=
  [.uint o.time, .uint o.nonce, .str o.orderType, .str o.symbol,
   .boolean o.isBuy, .str o.size, .str o.limitPrice, .boolean o.reduceOnly]

/-- `args = Web3.keccak(encode([...], [...]))` of `test-vest.py`: the order
hash is the keccak hash of the ABI encoding of the eight fields. -/
def orderHash (keccak : List Byte → List Byte) (o : Order) : List Byte :=
  keccak (abiEncode o.values)

/-- The explicit canonical ABI layout of the eight order fields: eight
32-byte head slots in the declared field order (`uint256` and `bool` inline,
each `string` as an offset word), followed by the four string tails in field
order. -/
def canonicalOrderBytes (o : Order) : List Byte :=
  word o.time ++ word o.nonce ++
  word 256 ++
  word (256 + stringTailLen o.orderType) ++
  boolWord o.isBuy ++
  word (256 + stringTailLen o.orderType + stringTailLen o.symbol) ++
  word (256 + stringTailLen o.orderType + stringTailLen o.symbol +
        stringTailLen o.size) ++
  boolWord o.reduceOnly ++
  stringTail o.orderType ++ stringTail o.symbol ++ stringTail o.size ++
  stringTail o.limitPrice

/-- The eight fields of `o1` and `o2` are pairwise equal. -/
def allFieldsEq (o1 o2 : Order) : Prop :=
  o1.time = o2.time ∧ o1.nonce = o2.nonce ∧ o1.orderType = o2.orderType ∧
  o1.symbol = o2.symbol ∧ o1.isBuy = o2.isBuy ∧ o1.size = o2.size ∧
  o1.limitPrice = o2.limitPrice ∧ o1.reduceOnly = o2.reduceOnly

/-- `o1` and `o2` differ in exactly one of the eight fields. -/
def differInExactlyOneField (o1 o2 : Order) : Prop :=
  (o1.time ≠ o2.time ∧ o1.nonce = o2.nonce ∧ o1.orderType = o2.orderType ∧
   o1.symbol = o2.symbol ∧ o1.isBuy = o2.isBuy ∧ o1.size = o2.size ∧
   o1.limitPrice = o2.limitPrice ∧ o1.reduceOnly = o2.reduceOnly) ∨
  (o1.time = o2.time ∧ o1.nonce ≠ o2.nonce ∧ o1.orderType = o2.orderType ∧
   o1.symbol = o2.symbol ∧ o1.isBuy = o2.isBuy ∧ o1.size = o2.size ∧
   o1.limitPrice = o2.limitPrice ∧ o1.reduceOnly = o2.reduceOnly) ∨
  (o1.time = o2.time ∧ o1.nonce = o2.nonce ∧ o1.orderType ≠ o2.orderType ∧
   o1.symbol = o2.symbol ∧ o1.isBuy = o2.isBuy ∧ o1.size = o2.size ∧
   o1.limitPrice = o2.limitPrice ∧ o1.reduceOnly = o2.reduceOnly) ∨
  (o1.time = o2.time ∧ o1.nonce = o2.nonce ∧ o1.orderType = o2.orderType ∧
   o1.symbol ≠ o2.symbol ∧ o1.isBuy = o2.isBuy ∧ o1.size = o2.size ∧
   o1.limitPrice = o2.limitPrice ∧ o1.reduceOnly = o2.reduceOnly) ∨
  (o1.time = o2.time ∧ o1.nonce = o2.nonce ∧ o1.orderType = o2.orderType ∧
   o1.symbol = o2.symbol ∧ o1.isBuy ≠ o2.isBuy ∧ o1.size = o2.size ∧
   o1.limitPrice = o2.limitPrice ∧ o1.reduceOnly = o2.reduceOnly) ∨
  (o1.time = o2.time ∧ o1.nonce = o2.nonce ∧ o1.orderType = o2.orderType ∧
   o1.symbol = o2.symbol ∧ o1.isBuy = o2.isBuy ∧ o1.size ≠ o2.size ∧
   o1.limitPrice = o2.limitPrice ∧ o1.reduceOnly = o2.reduceOnly) ∨
  (o1.time = o2.time ∧ o1.nonce = o2.nonce ∧ o1.orderType = o2.orderType ∧
   o1.symbol = o2.symbol ∧ o1.isBuy = o2.isBuy ∧ o1.size = o2.size ∧
   o1.limitPrice ≠ o2.limitPrice ∧ o1.reduceOnly = o2.reduceOnly) ∨
  (o1.time = o2.time ∧ o1.nonce = o2.nonce ∧ o1.orderType = o2.orderType ∧
   o1.symbol = o2.symbol ∧ o1.isBuy = o2.isBuy ∧ o1.size = o2.size ∧
   o1.limitPrice = o2.limitPrice ∧ o1.reduceOnly ≠ o2.reduceOnly)

/-- UTF-8/ASCII bytes of a string. -/
def asciiBytes (s : String) : List Byte := s.toList.map fun c => byteOf c.toNat

/-- A recoverable ECDSA signature as `eth_account` returns it:
`r`, `s` and the recovery byte `v`. -/
structure Sig where
  r : ℕ
  s : ℕ
  v : ℕ
deriving DecidableEq

/-- The 65-byte serialization `r (32 bytes) ‖ s (32 bytes) ‖ v (1 byte)`
behind the `.signature` attribute. -/
def sigBytes (sg : Sig) : List Byte :=
  beBytes 32 sg.r ++ beBytes 32 sg.s ++ [byteOf sg.v]

/-- The EIP-191 signable-message triple of `eth_account.messages`: a version
byte, a version-specific header, and the message body. -/
structure SignableMessage where
  version : Byte
  header : List Byte
  body : List Byte
deriving DecidableEq

/-- `eth_account.messages.encode_defunct(primitive)`: version byte `E`
(0x45), header `"thereum Signed Message:\n" + str(len(body))`, body the raw
payload. -/
def encode_defunct (msg : List Byte) : SignableMessage :=
  ⟨0x45,
   asciiBytes ("thereum Signed Message:\n") ++ asciiBytes (Nat.repr msg.length),
   msg⟩

/-- The digest `EthAccount.sign_message` actually hashes and signs:
`keccak(b"\x19" ‖ version ‖ header ‖ body)`. -/
def signingDigest (keccak : List Byte → List Byte) (m : SignableMessage) :
    List Byte :=
  keccak (0x19 :: m.version :: (m.header ++ m.body))

/-- `EthAccount.sign_message(msg, key)`, with the raw ECDSA step abstracted
as the deterministic primitive `S digest key`. -/
def sign_message (keccak : List Byte → List Byte) (S : List Byte → String → Sig)
    (m : SignableMessage) (key : String) : Sig :=
  S (signingDigest keccak m) key

/-- The fixed ASCII personal-message marker naming the 32-byte payload
length: `"\x19Ethereum Signed Message:\n32"`. -/
def personalMsgHeader32 : List Byte :=
  0x19 :: asciiBytes ("Ethereum Signed Message:\n32")

/-- The literal order of `test-vest.py`. -/
def testVestOrder : Order :=
  ⟨1762097336031, 1762097336031, asciiBytes ("MARKET"), asciiBytes ("BTC-PERP"),
   true, asciiBytes ("1.0000"), asciiBytes ("50000.00"), false⟩

/-- The literal test order with only `isBuy` flipped. -/
def testVestOrderFlipped : Order :=
  ⟨1762097336031, 1762097336031, asciiBytes ("MARKET"), asciiBytes ("BTC-PERP"),
   false, asciiBytes ("1.0000"), asciiBytes ("50000.00"), false⟩

/-- Ambient process state a script could observe: the wall clock and an
entropy stream.  The order-signing pipeline of `test-vest.py` reads
neither. -/
structure World where
  nowMillis : ℕ
  entropy : ℕ → Byte

/-- The full order pipeline of `test-vest.py` on the literal test order, run
in ambient world `w`: `args = keccak(encode(fields))`,
`signable_msg = encode_defunct(args)`,
`signature = sign_message(signable_msg, key)`.  The script consults neither
the clock nor the random source, so `w` is never read. -/
def testVestRun (_w : World) (keccak : List Byte → List Byte)
    (S : List Byte → String → Sig) (key : String) :
    List Byte × SignableMessage × Sig :=
  let args := orderHash keccak testVestOrder
  let signable := encode_defunct args
  let sg := sign_message keccak S signable key
  (args, signable, sg)

/-- A typed-data field value of the kinds the script's schemas use. -/
inductive TypedValue where
  | tstr (s : List Byte)
  | tuint (n : ℕ)
  | taddress (a : ℕ)

/-- EIP-712 leaf encoding of a struct field (`eth_account`'s typed-data
encoder): a `string` contributes the hash of its raw bytes, `uint256` and
`address` one big-endian 32-byte word. -/
def encodeTypedValue (keccak : List Byte → List Byte) : TypedValue → List Byte
  | .tstr s => keccak s
  | .tuint n => word n
  | .taddress a => word a

/-- The canonical type string `Name(tag1 field1,tag2 field2,...)` of a
struct schema (field list in declared order). -/
def typeStr (name : String) (fields : List (String × String)) : String :=
  name ++ "(" ++
    String.intercalate (",") (fields.map fun p => p.2 ++ " " ++ p.1) ++ ")"

/-- EIP-712 `hashStruct`: the hash of the type hash followed by the encoded
field values in declared order.  Each schema entry is
`(fieldName, typeTag, value)`. -/
def hashStruct (keccak : List Byte → List Byte) (name : String)
    (fields : List (String × String × TypedValue)) : List Byte :=
  keccak (keccak (asciiBytes (typeStr name (fields.map fun f => (f.1, f.2.1)))) ++
    (fields.map fun f => encodeTypedValue keccak f.2.2).flatten)

/-- The signing domain hard-coded in `src/utils/vest.py`. -/
def vestDomainName : String := "VestRouterV2"

/-- Domain version string of the script. -/
def vestDomainVersion : String := "0.0.1"

/-- `0x919386306C47b2Fe1036e3B4F7C40D22D2461a23`, the Vest Router V2 (Prod)
verifying contract of the script. -/
def vestRouterAddress : ℕ := 0x919386306C47b2Fe1036e3B4F7C40D22D2461a23

/-- The EIP-712 domain separator `encode_typed_data` derives from the three
domain fields the script supplies (name, version, verifyingContract). -/
def vestDomainSeparator (keccak : List Byte → List Byte) : List Byte :=
  hashStruct keccak ("EIP712Domain")
    [(("name"), ("string"), .tstr (asciiBytes vestDomainName)),
     (("version"), ("string"), .tstr (asciiBytes vestDomainVersion)),
     (("verifyingContract"), ("address"), .taddress vestRouterAddress)]

/-- The `SignerProof` struct hash for a delegated signer address and its
expiry: the fixed two-field schema
`{approvedSigner: address, signerExpiry: uint256}` of the script. -/
def signerProofStructHash (keccak : List Byte → List Byte)
    (approvedSigner signerExpiry : ℕ) : List Byte :=
  hashStruct keccak ("SignerProof")
    [(("approvedSigner"), ("address"), .taddress approvedSigner),
     (("signerExpiry"), ("uint256"), .tuint signerExpiry)]

/-- `encode_typed_data(domain, types, proofArgs)`: an EIP-191 version-0x01
signable message whose header is the domain separator and whose body is the
`SignerProof` struct hash; its signing digest is
`keccak(0x19 ‖ 0x01 ‖ domainSeparator ‖ structHash)`. -/
def encode_typed_data (keccak : List Byte → List Byte)
    (approvedSigner signerExpiry : ℕ) : SignableMessage :=
  ⟨0x01, vestDomainSeparator keccak,
   signerProofStructHash keccak approvedSigner signerExpiry⟩

/-- The secp256k1 group order, the private-scalar bound `eth_account`
enforces in `from_key`. -/
def curveOrder : ℕ :=
  0xFFFFFFFFFFFFFFFFFFFFFFFFFFFFFFFEBAAEDCE6AF48A03BBFD25E8CD0364141

/-- `EthAccount.from_key`: accepts a 32-byte private key exactly when its
integer value lies in `[1, curveOrder-1]`, and raises — `none`, with no
resampling anywhere on the failure path — otherwise. -/
def from_key (k : ℕ) : Option ℕ :=
  if 1 ≤ k ∧ k < curveOrder then some k else none

/-- `expiry = int(time.time()) * 1000 + (1 * 24 * 3600000)`: the wall clock
truncated to whole seconds, scaled to milliseconds, plus one day. -/
def expiry (nowSec : ℕ) : ℕ := nowSec * 1000 + 1 * 24 * 3600000

/-- A lowercase hexadecimal digit character. -/
def hexDigit (n : ℕ) : Char := Char.ofNat (if n < 10 then 48 + n else 87 + n)

/-- Fixed-width lowercase hexadecimal rendering of a natural number. -/
def hexStr (w n : ℕ) : String :=
  String.mk ((List.range w).map fun i => hexDigit (n / 16 ^ (w - 1 - i) % 16))

/-- Lowercase hexadecimal rendering of a byte string. -/
def bytesHex (l : List Byte) : String :=
  String.mk ((l.map fun b => [hexDigit (b.val / 16), hexDigit (b.val % 16)]).flatten)

/-- `(acct.address).lower()`: the 20-byte address as `0x` plus 40 lowercase
hex digits. -/
def lowerHexAddress (a : ℕ) : String := "0x" ++ hexStr 40 a

/-- `signature.hex()`: the `0x`-prefixed lowercase hex of the 65-byte
`r ‖ s ‖ v` serialization. -/
def sigHex (sg : Sig) : String := "0x" ++ bytesHex (sigBytes sg)

/-- Python `str.lower()`, characterwise. -/
def pyLower (s : String) : String := String.mk (s.toList.map Char.toLower)

/-- Where `src/utils/vest.py` stops when something is wrong: an invalid
generated key (raise inside `from_key`), a missing `PRIVATE_KEY`
(`sign_message` with `None`), or a missing `PUBLIC_KEY` (`None.lower()`
while building the request body). -/
inductive ScriptError where
  | invalidKey
  | missingPrivateKey
  | missingPublicKey
deriving DecidableEq

/-- The registration request body the script renders into the `curl`
command. -/
structure RegistrationBody where
  signingAddr : String
  primaryAddr : String
  signature : String
  expiryTime : ℕ
  networkType : ℕ
deriving DecidableEq

/-- Everything a successful script run produces: the generated scalar, the
proof arguments and signature, the request body, and the executed shell
command. -/
structure ScriptOutput where
  signingKey : ℕ
  proofApprovedSigner : ℕ
  proofSignerExpiry : ℕ
  proofSignature : Sig
  body : RegistrationBody
  executedCmd : String
deriving DecidableEq

/-- The `curl` template of the script with the placeholders substituted
(`\x7b`/`\x7d` are the `openbrace`/`closebrace` entries of the format
dictionary). -/
def registrationCmd (b : RegistrationBody) : String :=
  "\ncurl -H \x27Content-Type: application/json\x27 \\\n-d \x27\x7b \"signingAddr\": \"" ++
  b.signingAddr ++ "\", \"primaryAddr\": \"" ++ b.primaryAddr ++
  "\", \"signature\": \"" ++ b.signature ++ "\", \"expiryTime\": " ++
  Nat.repr b.expiryTime ++ ", \"networkType\": 0 \x7d\x27 \\\n-X POST \\\nhttps://server-prod.hz.vestmarkets.com/v2/register\n"

/-- The whole `src/utils/vest.py` run.  `env` is `os.getenv`, `draw` the
integer value of the 32 random bytes from `secrets.token_hex(32)`, `nowSec`
the truncated wall clock, `addrOf` the chain's address derivation for the
generated key, `S` the raw ECDSA signing primitive.  Phase 1 constructs the
signing key from the draw, phase 2 builds the `SignerProof` typed-data
message and signs its digest with the `PRIVATE_KEY` value, then the request
body is built (`None.lower()` raising if `PUBLIC_KEY` is absent) and the
`curl` command is rendered and executed. -/
def runScript (keccak : List Byte → List Byte) (S : List Byte → String → Sig)
    (addrOf : ℕ → ℕ) (env : String → Option String) (draw nowSec : ℕ) :
    Except ScriptError ScriptOutput :=
  match from_key draw with
  | none => .error .invalidKey
  | some k =>
    let signingPublicKey := addrOf k
    let e := expiry nowSec
    let proofMsg := encode_typed_data keccak signingPublicKey e
    match env ("PRIVATE_KEY") with
    | none => .error .missingPrivateKey
    | some pk =>
      let sg := sign_message keccak S proofMsg pk
      match env ("PUBLIC_KEY") with
      | none => .error .missingPublicKey
      | some pa =>
        let body : RegistrationBody :=
          ⟨lowerHexAddress signingPublicKey, pyLower pa, sigHex sg, e, 0⟩
        .ok ⟨k, signingPublicKey, e, sg, body, registrationCmd body⟩

/-- Test environment with only `PRIVATE_KEY` set. -/
def envNoPublic : String → Option String :=
  fun k => if k = "PRIVATE_KEY" then some ("0xprimarykey") else none

/-- Test environment with both `PUBLIC_KEY` and `PRIVATE_KEY` set. -/
def fullEnv : String → Option String :=
  fun k => if k = "PUBLIC_KEY" then some ("0xAbCd")
    else if k = "PRIVATE_KEY" then some ("0xprimarykey") else none

/-- Junk output used as the impossible fallback of `witnessOut`. -/
def scriptOutputFallback : ScriptOutput :=
  ⟨0, 0, 0, ⟨0, 0, 0⟩, ⟨"", "", "", 0, 0⟩, ""⟩

/-- The output of one concrete successful script run. -/
def witnessOut : ScriptOutput :=
  match runScript (fun l => l) (fun _ _ => ⟨1, 2, 27⟩) (fun a => a) fullEnv
      5 1700000000 with
  | .ok o => o
  | .error _ => scriptOutputFallback

/-- A recoverable ECDSA signature over a group of order `n`: scalars `r`,
`s` and the recovery bit. -/
structure EcdsaSig (n : ℕ) where
  r : ZMod n
  s : ZMod n
  v : Bool
deriving DecidableEq

/-- Modelled from the spec: the raw deterministic-ECDSA signing primitive
behind `EthAccount.sign_message` lives in the `eth_account`/`coincurve`
dependency, not in the repository.  Per spec §4.5, over an ambient group
standing for the secp256k1 point group: `G` is the base point, `xc` the
x-coordinate reduced mod the group order, `rid` the recovery bit of a
point, `nf` the deterministic nonce derivation from private key and digest.
`sign` computes `R = nonce • G`, `r = x(R)`, `s = nonce⁻¹ (z + r k)` and
fails (`none`) when `r` or `s` degenerates to zero. -/
def ecdsaSign {P : Type} [AddCommGroup P] {n : ℕ} (G : P) (xc : P → ZMod n)
    (rid : P → Bool) (nf : ZMod n → ZMod n → ZMod n) (k z : ZMod n) :
    Option (EcdsaSig n) :=
  if xc ((nf k z).val • G) = 0 then none
  else if (nf k z)⁻¹ * (z + xc ((nf k z).val • G) * k) = 0 then none
  else some ⟨xc ((nf k z).val • G),
             (nf k z)⁻¹ * (z + xc ((nf k z).val • G) * k),
             rid ((nf k z).val • G)⟩

/-- Modelled from the spec: public-key recovery (spec §4.5).  `pf`
reconstructs the nonce point from `(r, recoveryId)`; the signer's public
key is `r⁻¹ • (s • R - z • G)` and `addr` derives its address exactly as
key generation does.  Fails (`none`) on a degenerate signature. -/
def ecdsaRecover {P A : Type} [AddCommGroup P] {n : ℕ} (G : P)
    (pf : ZMod n → Bool → P) (addr : P → A) (z : ZMod n) (sg : EcdsaSig n) :
    Option A :=
  if sg.r = 0 ∨ sg.s = 0 then none
  else some (addr ((-(z * sg.r⁻¹)).val • G +
    (sg.s * sg.r⁻¹).val • pf sg.r sg.v))

/-- Modelled from the spec: the address derived from a private scalar — the
address of the public-key point `k • G` (spec §4.1/§4.5). -/
def addressOf {P A : Type} [AddCommGroup P] {n : ℕ} (G : P) (addr : P → A)
    (k : ZMod n) : A :=
  addr (k.val • G)

theorem beBytes_length (w m : ℕ) : (beBytes w m).length = w := by
  simp [beBytes]

theorem beBytes_succ (w m : ℕ) :
    beBytes (w + 1) m = byteOf (m / 256 ^ w) :: beBytes w m := by
  unfold beBytes
  rw [List.range_succ_eq_map, List.map_cons, List.map_map]
  refine congrArg₂ List.cons (by simp) ?_
  apply List.map_congr_left
  intro i _
  simp only [Function.comp_apply]
  have h : w + 1 - 1 - i.succ = w - 1 - i := by omega
  rw [h]

theorem beVal_beBytes (w m : ℕ) : beVal (beBytes w m) = m % 256 ^ w := by
  induction w generalizing m with
  | zero => simp [beBytes, beVal, Nat.mod_one]
  | succ w ih =>
      rw [beBytes_succ, beVal, ih, beBytes_length]
      rw [pow_succ, Nat.mod_mul]
      simp only [byteOf]
      ring

/-- `beBytes w` is injective on values below `256 ^ w`. -/
theorem beBytes_inj {w m1 m2 : ℕ} (h1 : m1 < 256 ^ w) (h2 : m2 < 256 ^ w)
    (h : beBytes w m1 = beBytes w m2) : m1 = m2 := by
  have := congrArg beVal h
  rwa [beVal_beBytes, beVal_beBytes, Nat.mod_eq_of_lt h1, Nat.mod_eq_of_lt h2] at this

theorem stringTail_length (s : List Byte) :
    (stringTail s).length = stringTailLen s := by
  simp [stringTail, stringTailLen, word, zeros, beBytes_length]
  omega

theorem abiEncode_order (o : Order) :
    abiEncode o.values = canonicalOrderBytes o := by
  simp [abiEncode, Order.values, encodeAux, AbiValue.headSlot, AbiValue.tailSec,
        canonicalOrderBytes, stringTail_length, List.append_assoc]

theorem word_length (n : ℕ) : (word n).length = 32 := beBytes_length 32 n

theorem boolWord_length (b : Bool) : (boolWord b).length = 32 := by
  simp [boolWord, word_length]

theorem zeros_length (n : ℕ) : (zeros n).length = n := by
  simp [zeros]

theorem word_inj {a b : ℕ} (ha : a < 256 ^ 32) (hb : b < 256 ^ 32)
    (h : word a = word b) : a = b :=
  beBytes_inj ha hb h

theorem boolWord_inj {x y : Bool} (h : boolWord x = boolWord y) : x = y := by
  cases x <;> cases y
  · rfl
  · have h' : word 0 = word 1 := by simpa [boolWord] using h
    exact absurd (word_inj (by norm_num) (by norm_num) h') (by norm_num)
  · have h' : word 1 = word 0 := by simpa [boolWord] using h
    exact absurd (word_inj (by norm_num) (by norm_num) h') (by norm_num)
  · rfl

/-- A string tail section is prefix-determined: its 32-byte length word says
how far the payload extends, so equal concatenations split identically. -/
theorem stringTail_append_inj {s1 s2 r1 r2 : List Byte}
    (h1 : s1.length < 256 ^ 32) (h2 : s2.length < 256 ^ 32)
    (h : stringTail s1 ++ r1 = stringTail s2 ++ r2) : s1 = s2 ∧ r1 = r2 := by
  rw [stringTail, stringTail] at h
  simp only [List.append_assoc] at h
  obtain ⟨hw, h⟩ := List.append_inj h (by simp [word_length])
  have hlen : s1.length = s2.length := word_inj h1 h2 hw
  obtain ⟨hs, h⟩ := List.append_inj h hlen
  obtain ⟨-, h⟩ := List.append_inj h (by simp [zeros_length, hlen])
  exact ⟨hs, h⟩

/-- The canonical order encoding is injective on well-formed orders: every
one of the eight fields is recoverable from the byte string. -/
theorem canonicalOrderBytes_inj {o1 o2 : Order} (w1 : o1.wf) (w2 : o2.wf)
    (h : canonicalOrderBytes o1 = canonicalOrderBytes o2) : o1 = o2 := by
  obtain ⟨ht1, hn1, hot1, hsy1, hsz1, hlp1⟩ := w1
  obtain ⟨ht2, hn2, hot2, hsy2, hsz2, hlp2⟩ := w2
  rw [canonicalOrderBytes, canonicalOrderBytes] at h
  simp only [List.append_assoc] at h
  obtain ⟨hw, h⟩ := List.append_inj h (by simp [word_length])
  have htime := word_inj ht1 ht2 hw
  obtain ⟨hw, h⟩ := List.append_inj h (by simp [word_length])
  have hnonce := word_inj hn1 hn2 hw
  obtain ⟨-, h⟩ := List.append_inj h (by simp [word_length])
  obtain ⟨-, h⟩ := List.append_inj h (by simp [word_length])
  obtain ⟨hw, h⟩ := List.append_inj h (by simp [boolWord_length])
  have hbuy := boolWord_inj hw
  obtain ⟨-, h⟩ := List.append_inj h (by simp [word_length])
  obtain ⟨-, h⟩ := List.append_inj h (by simp [word_length])
  obtain ⟨hw, h⟩ := List.append_inj h (by simp [boolWord_length])
  have hreduce := boolWord_inj hw
  obtain ⟨hot, h⟩ := stringTail_append_inj hot1 hot2 h
  obtain ⟨hsy, h⟩ := stringTail_append_inj hsy1 hsy2 h
  obtain ⟨hsz, h⟩ := stringTail_append_inj hsz1 hsz2 h
  have h' : stringTail o1.limitPrice ++ ([] : List Byte) =
      stringTail o2.limitPrice ++ [] := by simpa using h
  have hlp := (stringTail_append_inj hlp1 hlp2 h').1
  cases o1
  cases o2
  simp_all

theorem differInExactlyOneField_ne {o1 o2 : Order}
    (h : differInExactlyOneField o1 o2) : o1 ≠ o2 := by
  intro he
  subst he
  rcases h with h | h | h | h | h | h | h | h <;> tauto

theorem sigBytes_length (sg : Sig) : (sigBytes sg).length = 65 := by
  simp [sigBytes, beBytes_length]

/-- C3: for every order, the order hash equals the keccak hash of the
canonical ABI-style encoding of exactly the eight fields in the fixed
declared order (time, nonce, orderType, symbol, isBuy, size, limitPrice,
reduceOnly), with `uint256` and `bool` inline at 32 bytes and strings
tail-encoded per the binary ABI layout; no semantic field is omitted from
the encoding. -/
theorem orderHash_canonical_abi (keccak : List Byte → List Byte) (o : Order) :
    orderHash keccak o = keccak (canonicalOrderBytes o) := by
  rw [orderHash, abiEncode_order]

/-- C4: for every 32-byte hash `h`, the digest actually signed for an order
is the hash of the fixed ASCII personal-message marker — which names the
32-byte payload length — concatenated with `h`, not the raw order hash `h`
itself; the signature is computed over this wrapped digest. -/
theorem signed_digest_is_wrapped (keccak : List Byte → List Byte)
    (S : List Byte → String → Sig) (key : String)
    (h : List Byte) (hlen : h.length = 32) :
    signingDigest keccak (encode_defunct h) = keccak (personalMsgHeader32 ++ h) ∧
    sign_message keccak S (encode_defunct h) key =
      S (keccak (personalMsgHeader32 ++ h)) key := by
  have hd : signingDigest keccak (encode_defunct h) =
      keccak (personalMsgHeader32 ++ h) := by
    rw [signingDigest, encode_defunct, personalMsgHeader32, hlen]
    congr 1
  exact ⟨hd, by rw [sign_message, hd]⟩

/-- C7: under a collision-free hash, two well-formed orders differing in
exactly one of the eight fields have different order hashes, and two orders
whose eight fields are all equal have identical order hashes (the canonical
encoding itself is injective, so any hash disagreement reduces to a hash
collision). -/
theorem orderHash_avalanche (keccak : List Byte → List Byte)
    (hk : Function.Injective keccak) {o1 o2 : Order} (w1 : o1.wf) (w2 : o2.wf) :
    (differInExactlyOneField o1 o2 →
      orderHash keccak o1 ≠ orderHash keccak o2) ∧
    (allFieldsEq o1 o2 → orderHash keccak o1 = orderHash keccak o2) := by
  constructor
  · intro hd he
    apply differInExactlyOneField_ne hd
    have henc : abiEncode o1.values = abiEncode o2.values := hk he
    rw [abiEncode_order, abiEncode_order] at henc
    exact canonicalOrderBytes_inj w1 w2 henc
  · intro ha
    have : o1 = o2 := by
      obtain ⟨h1, h2, h3, h4, h5, h6, h7, h8⟩ := ha
      cases o1
      cases o2
      simp_all
    rw [this]

theorem orderHash_avalanche_witness :
    Function.Injective (fun l : List Byte => l) ∧
    testVestOrder.wf ∧ testVestOrderFlipped.wf ∧
    ((differInExactlyOneField testVestOrder testVestOrderFlipped →
        orderHash (fun l => l) testVestOrder ≠
          orderHash (fun l => l) testVestOrderFlipped) ∧
     (allFieldsEq testVestOrder testVestOrderFlipped →
        orderHash (fun l => l) testVestOrder =
          orderHash (fun l => l) testVestOrderFlipped)) :=
  ⟨fun _ _ hab => hab, by decide, by decide,
   orderHash_avalanche (fun l => l) (fun _ _ hab => hab) (by decide) (by decide)⟩

theorem signed_digest_is_wrapped_witness :
    (zeros 32).length = 32 ∧
    (signingDigest (fun l => l) (encode_defunct (zeros 32)) =
        (fun l : List Byte => l) (personalMsgHeader32 ++ zeros 32) ∧
     sign_message (fun l => l) (fun d _ => ⟨d.length, 0, 27⟩)
         (encode_defunct (zeros 32)) ("k") =
       (fun d _ => ⟨d.length, 0, 27⟩ : List Byte → String → Sig)
         ((fun l : List Byte => l) (personalMsgHeader32 ++ zeros 32)) ("k")) :=
  ⟨by decide,
   signed_digest_is_wrapped (fun l => l) (fun d _ => ⟨d.length, 0, 27⟩) ("k")
     (zeros 32) (by decide)⟩

/-- C6: digest computation and signing are deterministic — no hidden state
(randomness or time-of-call) enters any digest, and the ECDSA step is the
deterministic function `S` of the digest and the key alone — so for the
literal order (time 1762097336031, nonce 1762097336031, MARKET, BTC-PERP,
isBuy, size 1.0000, limit 50000.00, not reduce-only) and a fixed private
scalar, any two runs of the pipeline, in arbitrary and unrelated ambient
worlds, produce byte-identical order hash, wrapped signable digest, and
signature. -/
theorem testVest_deterministic (keccak : List Byte → List Byte)
    (S : List Byte → String → Sig) (key : String) (w1 w2 : World) :
    testVestRun w1 keccak S key = testVestRun w2 keccak S key := rfl

/-- Anatomy of every successful run: the three external inputs were present
and valid, and the output is exactly the record the script builds from
them. -/
theorem runScript_ok_spec (keccak : List Byte → List Byte)
    (S : List Byte → String → Sig) (addrOf : ℕ → ℕ)
    (env : String → Option String) (draw nowSec : ℕ) (out : ScriptOutput)
    (h : runScript keccak S addrOf env draw nowSec = .ok out) :
    ∃ k pk pa, from_key draw = some k ∧ env ("PRIVATE_KEY") = some pk ∧
      env ("PUBLIC_KEY") = some pa ∧
      out = ⟨k, addrOf k, expiry nowSec,
        sign_message keccak S
          (encode_typed_data keccak (addrOf k) (expiry nowSec)) pk,
        ⟨lowerHexAddress (addrOf k), pyLower pa,
         sigHex (sign_message keccak S
           (encode_typed_data keccak (addrOf k) (expiry nowSec)) pk),
         expiry nowSec, 0⟩,
        registrationCmd
          ⟨lowerHexAddress (addrOf k), pyLower pa,
           sigHex (sign_message keccak S
             (encode_typed_data keccak (addrOf k) (expiry nowSec)) pk),
           expiry nowSec, 0⟩⟩ := by
  unfold runScript at h
  cases hk : from_key draw with
  | none => rw [hk] at h; simp at h
  | some k =>
    rw [hk] at h
    cases hpk : env ("PRIVATE_KEY") with
    | none => rw [hpk] at h; simp at h
    | some pk =>
      rw [hpk] at h
      cases hpa : env ("PUBLIC_KEY") with
      | none => rw [hpa] at h; simp at h
      | some pa =>
        rw [hpa] at h
        simp only [Except.ok.injEq] at h
        exact ⟨k, pk, pa, rfl, rfl, rfl, h.symm⟩

/-- C9: if the `PUBLIC_KEY` environment value is absent, the script raises
while building the request body (`None.lower()`), before the registration
command is constructed or executed: the run never reaches `.ok`, so no
external registration call is ever attempted; and whenever key generation
and the proof signature succeeded beforehand, the resulting error is
precisely the missing-public-key failure. -/
theorem missing_public_key_aborts (keccak : List Byte → List Byte)
    (S : List Byte → String → Sig) (addrOf : ℕ → ℕ)
    (env : String → Option String) (draw nowSec : ℕ)
    (h : env ("PUBLIC_KEY") = none) :
    (∀ out : ScriptOutput,
        runScript keccak S addrOf env draw nowSec ≠ .ok out) ∧
    (∀ k, from_key draw = some k → ∀ pk, env ("PRIVATE_KEY") = some pk →
        runScript keccak S addrOf env draw nowSec =
          .error ScriptError.missingPublicKey) := by
  constructor
  · intro out hok
    obtain ⟨k, pk, pa, -, -, hpa, -⟩ :=
      runScript_ok_spec keccak S addrOf env draw nowSec out hok
    rw [h] at hpa
    cases hpa
  · intro k hk pk hpk
    unfold runScript
    rw [hk, hpk, h]

/-- C10: the signer expiry placed in the proof arguments and in the
registration request equals the wall clock truncated to whole seconds,
times 1000, plus exactly 86,400,000 ms (one day); both copies are the same
value and it is an integer multiple of 1000. -/
theorem expiry_is_now_plus_one_day (keccak : List Byte → List Byte)
    (S : List Byte → String → Sig) (addrOf : ℕ → ℕ)
    (env : String → Option String) (draw nowSec : ℕ) (out : ScriptOutput)
    (h : runScript keccak S addrOf env draw nowSec = .ok out) :
    out.proofSignerExpiry = nowSec * 1000 + 86400000 ∧
    out.body.expiryTime = nowSec * 1000 + 86400000 ∧
    1000 ∣ out.proofSignerExpiry ∧ 1000 ∣ out.body.expiryTime := by
  obtain ⟨k, pk, pa, -, -, -, hout⟩ :=
    runScript_ok_spec keccak S addrOf env draw nowSec out h
  subst hout
  refine ⟨by simp [expiry], by simp [expiry], ?_, ?_⟩ <;>
    exact ⟨nowSec + 86400, by simp [expiry]; ring⟩

/-- C8: the registration request body is the JSON object whose
`signingAddr` is the lowercase hex address of the delegated key, whose
`primaryAddr` is the lowercased primary address taken from the environment,
whose `signature` is the hex encoding of the 65-byte proof signature made
by the primary key, whose `expiryTime` is the integer epoch-millisecond
expiry, and whose `networkType` is an integer selecting the environment
(0, production). -/
theorem registration_body_fields (keccak : List Byte → List Byte)
    (S : List Byte → String → Sig) (addrOf : ℕ → ℕ)
    (env : String → Option String) (draw nowSec : ℕ) (out : ScriptOutput)
    (h : runScript keccak S addrOf env draw nowSec = .ok out) :
    ∃ k pk pa, from_key draw = some k ∧ env ("PRIVATE_KEY") = some pk ∧
      env ("PUBLIC_KEY") = some pa ∧
      out.body.signingAddr = lowerHexAddress (addrOf k) ∧
      out.body.primaryAddr = pyLower pa ∧
      out.body.signature = sigHex out.proofSignature ∧
      (sigBytes out.proofSignature).length = 65 ∧
      out.proofSignature = sign_message keccak S
        (encode_typed_data keccak (addrOf k) (expiry nowSec)) pk ∧
      out.body.expiryTime = expiry nowSec ∧
      out.body.networkType = 0 := by
  obtain ⟨k, pk, pa, hk, hpk, hpa, hout⟩ :=
    runScript_ok_spec keccak S addrOf env draw nowSec out h
  subst hout
  exact ⟨k, pk, pa, hk, hpk, hpa, rfl, rfl, rfl, sigBytes_length _, rfl, rfl, rfl⟩

/-- C5: the delegated-signer proof digest is the EIP-712 digest (domain
separator and struct hash under the fixed Vest domain) of the two-field
`SignerProof` schema `{approvedSigner: address, signerExpiry: uint256}`
filled with the freshly generated key's address and the expiry, and the
script signs it with the primary private key from the environment — the
freshly generated delegated key never signs its own proof. -/
theorem proof_signed_by_primary (keccak : List Byte → List Byte)
    (S : List Byte → String → Sig) (addrOf : ℕ → ℕ)
    (env : String → Option String) (draw nowSec : ℕ) (out : ScriptOutput)
    (h : runScript keccak S addrOf env draw nowSec = .ok out) :
    ∃ k pk, from_key draw = some k ∧ env ("PRIVATE_KEY") = some pk ∧
      out.proofSignature =
        S (keccak (0x19 :: 0x01 ::
            (vestDomainSeparator keccak ++
             signerProofStructHash keccak (addrOf k) (expiry nowSec)))) pk ∧
      signerProofStructHash keccak (addrOf k) (expiry nowSec) =
        keccak (keccak (asciiBytes (typeStr ("SignerProof")
            [(("approvedSigner"), ("address")),
             (("signerExpiry"), ("uint256"))])) ++
          (word (addrOf k) ++ word (expiry nowSec))) ∧
      out.proofApprovedSigner = addrOf k ∧
      out.proofSignerExpiry = expiry nowSec := by
  obtain ⟨k, pk, pa, hk, hpk, -, hout⟩ :=
    runScript_ok_spec keccak S addrOf env draw nowSec out h
  subst hout
  refine ⟨k, pk, hk, hpk, ?_, ?_, rfl, rfl⟩
  · simp [sign_message, signingDigest, encode_typed_data]
  · simp [signerProofStructHash, hashStruct, encodeTypedValue]

theorem missing_public_key_aborts_witness :
    envNoPublic ("PUBLIC_KEY") = none ∧
    runScript (fun l => l) (fun _ _ => ⟨1, 2, 27⟩) (fun a => a) envNoPublic
        5 1700000000 = .error ScriptError.missingPublicKey := by
  refine ⟨rfl, ?_⟩
  exact (missing_public_key_aborts (fun l => l) (fun _ _ => ⟨1, 2, 27⟩)
    (fun a => a) envNoPublic 5 1700000000 rfl).2 5 rfl ("0xprimarykey") rfl

theorem expiry_is_now_plus_one_day_witness :
    witnessOut.proofSignerExpiry = 1700000000 * 1000 + 86400000 ∧
    1000 ∣ witnessOut.body.expiryTime := by
  obtain ⟨h1, -, -, h4⟩ := expiry_is_now_plus_one_day (fun l => l)
    (fun _ _ => ⟨1, 2, 27⟩) (fun a => a) fullEnv 5 1700000000 witnessOut rfl
  exact ⟨h1, h4⟩

theorem registration_body_fields_witness :
    witnessOut.body.networkType = 0 ∧
    (sigBytes witnessOut.proofSignature).length = 65 ∧
    witnessOut.body.signature = sigHex witnessOut.proofSignature := by
  obtain ⟨k, pk, pa, -, -, -, -, -, hsig, h65, -, -, hnt⟩ :=
    registration_body_fields (fun l => l) (fun _ _ => ⟨1, 2, 27⟩) (fun a => a)
      fullEnv 5 1700000000 witnessOut rfl
  exact ⟨hnt, h65, hsig⟩

theorem proof_signed_by_primary_witness :
    witnessOut.proofApprovedSigner = 5 ∧
    witnessOut.proofSignerExpiry = expiry 1700000000 := by
  obtain ⟨k, pk, hk, -, -, -, happ, hexp⟩ :=
    proof_signed_by_primary (fun l => l) (fun _ _ => ⟨1, 2, 27⟩) (fun a => a)
      fullEnv 5 1700000000 witnessOut rfl
  have hk5 : k = 5 := by
    have : from_key 5 = some 5 := rfl
    rw [this] at hk
    cases hk
    rfl
  rw [hk5] at happ
  exact ⟨happ, hexp⟩

/-- C2 as stated fails on the code: on the all-zero 32-byte draw, key
construction yields no scalar at all — `from_key` raises and the script
aborts with the invalid-key error — instead of resampling. -/
theorem from_key_zero_no_resample :
    from_key 0 = none ∧
    runScript (fun l => l) (fun _ _ => ⟨1, 2, 27⟩) (fun a => a) fullEnv
        0 1700000000 = .error ScriptError.invalidKey :=
  ⟨rfl, rfl⟩

/-- C2 amended: key generation draws 32 bytes from the secure random source
and validates them; whenever the resulting integer is 0 or ≥ curve order,
key construction fails with an error (the draw is rejected but never
resampled), and whenever it succeeds the returned private scalar lies in
`[1, curveOrder-1]`. -/
theorem from_key_range (d : ℕ) :
    (∀ k, from_key d = some k → 1 ≤ k ∧ k < curveOrder) ∧
    ((d = 0 ∨ curveOrder ≤ d) → from_key d = none) := by
  constructor
  · intro k hk
    unfold from_key at hk
    split at hk
    · cases hk
      assumption
    · cases hk
  · intro hd
    unfold from_key
    rw [if_neg]
    omega

theorem from_key_range_witness :
    (1 ≤ 5 ∧ 5 < curveOrder) ∧ from_key 0 = none :=
  ⟨(from_key_range 5).1 5 rfl, (from_key_range 0).2 (Or.inl rfl)⟩

theorem nsmul_mod {P : Type} [AddCommGroup P] {n : ℕ} {G : P}
    (hG : n • G = 0) (m : ℕ) : m • G = (m % n) • G := by
  conv_lhs => rw [← Nat.div_add_mod m n]
  rw [add_nsmul, mul_comm, ← smul_smul, hG, smul_zero, zero_add]

theorem smul_val_add {P : Type} [AddCommGroup P] {n : ℕ} [NeZero n] {G : P}
    (hG : n • G = 0) (a b : ZMod n) :
    (a + b).val • G = a.val • G + b.val • G := by
  rw [ZMod.val_add, ← nsmul_mod hG, add_nsmul]

theorem smul_val_mul {P : Type} [AddCommGroup P] {n : ℕ} [NeZero n] {G : P}
    (hG : n • G = 0) (a b : ZMod n) :
    (a * b).val • G = a.val • b.val • G := by
  rw [ZMod.val_mul, ← nsmul_mod hG, smul_smul]

/-- C1: for every private scalar `k` in `[1, n-1]` and every digest `z`,
recovering the signer address from the signature produced by signing `z`
with `k` yields exactly the address derived from `k`.  Stated over the
spec-modelled ECDSA of §4.5: the ambient group has prime order `n` with
`n • G = 0`, the recovery-id mechanism reconstructs the nonce point
(`pf (xc R) (rid R) = R`), and the deterministic nonce is nonzero. -/
theorem ecdsa_sign_recover_roundtrip {P A : Type} [AddCommGroup P] {n : ℕ}
    (hp : n.Prime) (G : P) (hG : n • G = 0)
    (xc : P → ZMod n) (rid : P → Bool) (pf : ZMod n → Bool → P)
    (hpf : ∀ R : P, pf (xc R) (rid R) = R)
    (addr : P → A) (nf : ZMod n → ZMod n → ZMod n)
    (k z : ZMod n) (_hk : k ≠ 0) (hnf : nf k z ≠ 0)
    (sg : EcdsaSig n) (hs : ecdsaSign G xc rid nf k z = some sg) :
    ecdsaRecover G pf addr z sg = some (addressOf G addr k) := by
  haveI : Fact n.Prime := ⟨hp⟩
  haveI : NeZero n := ⟨hp.ne_zero⟩
  unfold ecdsaSign at hs
  split at hs
  · exact absurd hs (by simp)
  · rename_i hr
    split at hs
    · exact absurd hs (by simp)
    · rename_i hs0
      injection hs with hs
      subst hs
      unfold ecdsaRecover
      split
      · rename_i hcond
        rcases hcond with hc | hc
        · exact absurd hc hr
        · exact absurd hc hs0
      · congr 1
        unfold addressOf
        congr 1
        rw [hpf]
        rw [← smul_val_mul hG, ← smul_val_add hG]
        have hfe : -(z * (xc ((nf k z).val • G))⁻¹) +
            (nf k z)⁻¹ * (z + xc ((nf k z).val • G) * k) *
              (xc ((nf k z).val • G))⁻¹ * (nf k z) = k := by
          field_simp
          ring
        rw [hfe]

theorem ecdsa_sign_concrete : ecdsaSign (1 : ZMod 3) (fun x => x)
    (fun _ => false) (fun t _ => t) 1 1 = some ⟨1, 2, false⟩ := by
  have hinv : ((1 : ZMod 3))⁻¹ = 1 := by
    haveI : Fact (Nat.Prime 3) := ⟨by norm_num⟩
    exact inv_one
  simp only [ecdsaSign, hinv]
  norm_num
  decide

theorem ecdsa_sign_recover_roundtrip_witness :
    (Nat.Prime 3 ∧ (3 : ℕ) • (1 : ZMod 3) = 0 ∧ (1 : ZMod 3) ≠ 0) ∧
    ecdsaRecover (1 : ZMod 3) (fun r _ => r) (fun x => x) (1 : ZMod 3)
        (⟨1, 2, false⟩ : EcdsaSig 3) =
      some (addressOf (1 : ZMod 3) (fun x => x) (1 : ZMod 3)) :=
  ⟨⟨by norm_num, by decide, by decide⟩,
   @ecdsa_sign_recover_roundtrip (ZMod 3) (ZMod 3) _ 3 (by norm_num)
     1 (by decide) (fun x => x) (fun _ => false) (fun r _ => r) (fun _ => rfl)
     (fun x => x) (fun t _ => t) 1 1 (by decide) (by decide) ⟨1, 2, false⟩
     ecdsa_sign_concrete⟩
